import Mathlib

/-
Verification of the encoder input-state adapter in `encoders.py`
(bdbarnett/lvmp_encoders).

The `Encoder` class is a small state machine: four mutation methods
(`inc`, `dec`, `fast_inc`, `fast_dec`) accumulate a signed counter and set a
change flag, `push`/`press_cb`/`release_cb` drive a pressed flag, and the
LVGL read callback `_read_cb` reports at most one press/release transition
and one signed delta per poll, resynchronising the tracking fields.

The embedding below mirrors the Python fields (leading underscores dropped):
`_value` becomes `value`, `_last_value` becomes `last_value`,
`_lastpressed` becomes `lastpressed`, `_value_changed` becomes
`value_changed`.  Python integers are unbounded, so they are modelled as
`Int`.  The LVGL `data` record written by the read callback is modelled as
`ReadData`: `data.state` is only assigned on a transition (`Option`), and
`data.enc_diff` defaults to 0 when no delta is written.
-/

namespace LvmpEncoders

/-- LVGL indev state constants `lv.INDEV_STATE.PRESSED` / `RELEASED` as
assigned to `data.state` by `Encoder._read_cb`. -/
inductive IndevState where
  | pressed
  | released
deriving DecidableEq, Repr

/-- The mutable fields of a Python `Encoder` instance, as set up by
`Encoder.__init__`: configuration (`def_dur`, `fast_mult`), the press flags
(`pressed`, `_lastpressed`), and the counter tracking fields (`_value`,
`_last_value`, `_value_changed`). -/
structure EncState where
  def_dur : Int
  fast_mult : Int
  pressed : Bool
  lastpressed : Bool
  value : Int
  last_value : Int
  value_changed : Bool
deriving DecidableEq, Repr

/-- The field initialisation performed by `Encoder.__init__`:
`pressed = False`, `_lastpressed = False`, `_value = 0`,
`_last_value = self.value()`, `_value_changed = False`. -/
def init_state (def_dur fast_mult : Int) : EncState :=
  { def_dur := def_dur
    fast_mult := fast_mult
    pressed := false
    lastpressed := false
    value := 0
    last_value := 0
    value_changed := false }

/-- `Encoder._set_value_changed`: sets `_value_changed = True`. -/
def EncState.set_value_changed (s : EncState) : EncState :=
  { s with value_changed := true }

/-- `Encoder.inc(diff)`: `_value += diff`, then `_set_value_changed()`. -/
def EncState.inc (s : EncState) (diff : Int) : EncState :=
  EncState.set_value_changed { s with value := s.value + diff }

/-- `Encoder.dec(diff)`: `_value -= diff`, then `_set_value_changed()`. -/
def EncState.dec (s : EncState) (diff : Int) : EncState :=
  EncState.set_value_changed { s with value := s.value - diff }

/-- `Encoder.fast_inc(diff)`: `_value += diff * fast_mult`, then
`_set_value_changed()`. -/
def EncState.fast_inc (s : EncState) (diff : Int) : EncState :=
  EncState.set_value_changed { s with value := s.value + diff * s.fast_mult }

/-- `Encoder.fast_dec(diff)`: `_value -= diff * fast_mult`, then
`_set_value_changed()`. -/
def EncState.fast_dec (s : EncState) (diff : Int) : EncState :=
  EncState.set_value_changed { s with value := s.value - diff * s.fast_mult }

/-- `Encoder.press_cb`: sets `pressed = True`. -/
def EncState.press_cb (s : EncState) : EncState :=
  { s with pressed := true }

/-- `Encoder.release_cb`: sets `pressed = False`. -/
def EncState.release_cb (s : EncState) : EncState :=
  { s with pressed := false }

/-- The one-shot LVGL timer configured by `Encoder.push`: `set_period(period)`
and `set_repeat_count(1)`; its callback invokes `release_cb`. -/
structure LvTimer where
  period : Int
  repeat_count : Int
deriving DecidableEq, Repr

/-- `Encoder.push(period)`: `if not period: period = self.def_dur` (Python
falsiness: both `None` and `0` are replaced by `def_dur`), then `press_cb()`
and creation of a one-shot timer with that period whose callback is
`release_cb`. -/
def EncState.push (s : EncState) (period : Option Int) : EncState × LvTimer :=
  let p : Int :=
    match period with
    | none => s.def_dur
    | some k => if k = 0 then s.def_dur else k
  (EncState.press_cb s, { period := p, repeat_count := 1 })

/-- The LVGL `data` record as left by one invocation of `Encoder._read_cb`:
`state` is assigned only when a press transition is reported, and `enc_diff`
is 0 unless a counter delta is written. -/
structure ReadData where
  state : Option IndevState
  enc_diff : Int
deriving DecidableEq, Repr

/-- First block of `Encoder._read_cb`: if `pressed != _lastpressed`, write
`data.state` (PRESSED if `pressed` else RELEASED) and update
`_lastpressed = pressed`; otherwise `data.state` is left unassigned. -/
def EncState.read_press (s : EncState) : EncState × Option IndevState :=
  if s.pressed ≠ s.lastpressed then
    ({ s with lastpressed := s.pressed },
      some (if s.pressed then IndevState.pressed else IndevState.released))
  else (s, none)

/-- Second block of `Encoder._read_cb`: if `_value_changed`, clear it, write
`data.enc_diff = value - _last_value` and update `_last_value = value`;
otherwise `data.enc_diff` keeps its default 0. -/
def EncState.read_value (s : EncState) : EncState × Int :=
  if s.value_changed then
    ({ s with value_changed := false, last_value := s.value },
      s.value - s.last_value)
  else (s, 0)

/-- `Encoder._read_cb(indev, data)`: the press block followed by the value
block.  Returns the state after the call and the data record written. -/
def EncState.read_cb (s : EncState) : EncState × ReadData :=
  (((s.read_press).1.read_value).1,
    { state := (s.read_press).2, enc_diff := ((s.read_press).1.read_value).2 })

theorem read_press_fst (s : EncState) :
    (s.read_press).1 = { s with lastpressed := s.pressed } := by
  unfold EncState.read_press
  split
  · rfl
  · rename_i h
    simp only [ne_eq, not_not] at h
    cases s
    simp_all

theorem read_press_snd (s : EncState) :
    (s.read_press).2 =
      if s.pressed = s.lastpressed then none
      else some (if s.pressed then IndevState.pressed else IndevState.released) := by
  unfold EncState.read_press
  split <;> rename_i h <;> simp only [ne_eq, not_not] at h <;> simp [h]

theorem read_value_snd (s : EncState) :
    (s.read_value).2 = if s.value_changed then s.value - s.last_value else 0 := by
  unfold EncState.read_value
  split <;> simp_all

theorem read_value_fst (s : EncState) :
    (s.read_value).1 =
      { s with value_changed := false,
               last_value := if s.value_changed then s.value else s.last_value } := by
  unfold EncState.read_value
  split <;> rename_i h <;> cases s <;> simp_all

theorem read_cb_fst (s : EncState) :
    (s.read_cb).1 =
      { s with lastpressed := s.pressed,
               value_changed := false,
               last_value := if s.value_changed then s.value else s.last_value } := by
  unfold EncState.read_cb
  rw [read_press_fst, read_value_fst]

theorem read_cb_enc_diff (s : EncState) :
    (s.read_cb).2.enc_diff =
      if s.value_changed then s.value - s.last_value else 0 := by
  unfold EncState.read_cb
  rw [read_press_fst, read_value_snd]

theorem read_cb_data_state (s : EncState) :
    (s.read_cb).2.state =
      if s.pressed = s.lastpressed then none
      else some (if s.pressed then IndevState.pressed else IndevState.released) := by
  unfold EncState.read_cb
  rw [read_press_snd]

/-- One call of the counter-mutation methods `inc` / `dec` / `fast_inc` /
`fast_dec`, with its (arbitrary integer) argument. -/
inductive MutOp where
  | inc (diff : Int)
  | dec (diff : Int)
  | fast_inc (diff : Int)
  | fast_dec (diff : Int)
deriving DecidableEq, Repr

/-- Effect of one mutation call on the encoder state. -/
def EncState.applyMut (s : EncState) : MutOp → EncState
  | MutOp.inc d => s.inc d
  | MutOp.dec d => s.dec d
  | MutOp.fast_inc d => s.fast_inc d
  | MutOp.fast_dec d => s.fast_dec d

/-- The signed amount a mutation call applies to the counter: `inc`/`dec`
apply `diff` directly, the fast variants scale it by `fast_mult`. -/
def MutOp.amount (fast_mult : Int) : MutOp → Int
  | MutOp.inc d => d
  | MutOp.dec d => -d
  | MutOp.fast_inc d => d * fast_mult
  | MutOp.fast_dec d => -(d * fast_mult)

/-- Effect of a whole sequence of mutation calls, applied left to right. -/
def EncState.applyMuts (s : EncState) (l : List MutOp) : EncState :=
  l.foldl EncState.applyMut s

theorem applyMut_value (s : EncState) (m : MutOp) :
    (s.applyMut m).value = s.value + m.amount s.fast_mult := by
  cases m <;>
    simp [EncState.applyMut, EncState.inc, EncState.dec, EncState.fast_inc,
      EncState.fast_dec, EncState.set_value_changed, MutOp.amount, sub_eq_add_neg]

theorem applyMut_last_value (s : EncState) (m : MutOp) :
    (s.applyMut m).last_value = s.last_value := by
  cases m <;>
    simp [EncState.applyMut, EncState.inc, EncState.dec, EncState.fast_inc,
      EncState.fast_dec, EncState.set_value_changed]

theorem applyMut_fast_mult (s : EncState) (m : MutOp) :
    (s.applyMut m).fast_mult = s.fast_mult := by
  cases m <;>
    simp [EncState.applyMut, EncState.inc, EncState.dec, EncState.fast_inc,
      EncState.fast_dec, EncState.set_value_changed]

theorem applyMut_value_changed (s : EncState) (m : MutOp) :
    (s.applyMut m).value_changed = true := by
  cases m <;>
    simp [EncState.applyMut, EncState.inc, EncState.dec, EncState.fast_inc,
      EncState.fast_dec, EncState.set_value_changed]

theorem applyMuts_value (s : EncState) (l : List MutOp) :
    (s.applyMuts l).value = s.value + (l.map (MutOp.amount s.fast_mult)).sum := by
  induction l generalizing s with
  | nil => simp [EncState.applyMuts]
  | cons m rest ih =>
      have h1 : (s.applyMut m).fast_mult = s.fast_mult := applyMut_fast_mult s m
      calc ((s.applyMut m).applyMuts rest).value
          = (s.applyMut m).value +
              (rest.map (MutOp.amount (s.applyMut m).fast_mult)).sum := ih (s.applyMut m)
        _ = s.value + ((m :: rest).map (MutOp.amount s.fast_mult)).sum := by
            rw [h1, applyMut_value]; simp [add_assoc]

theorem applyMuts_last_value (s : EncState) (l : List MutOp) :
    (s.applyMuts l).last_value = s.last_value := by
  induction l generalizing s with
  | nil => rfl
  | cons m rest ih =>
      calc ((s.applyMut m).applyMuts rest).last_value
          = (s.applyMut m).last_value := ih (s.applyMut m)
        _ = s.last_value := applyMut_last_value s m

theorem applyMuts_value_changed_of_ne_nil (s : EncState) (l : List MutOp)
    (h : l ≠ []) : (s.applyMuts l).value_changed = true := by
  induction l generalizing s with
  | nil => exact absurd rfl h
  | cons m rest ih =>
      cases rest with
      | nil => exact applyMut_value_changed s m
      | cons m2 rest2 =>
          exact ih (s.applyMut m) (by simp)

/-- C1: starting from a state whose counter has been fully reported
(`_last_value == _value`, as after any read or at construction), applying any
sequence of `inc`/`dec`/`fast_inc`/`fast_dec` calls with no intervening read
makes the single next invocation of `_read_cb` report exactly one delta equal
to the algebraic sum of all applied amounts, with fast variants scaled by
`fast_mult`; the intermediate counter values are never reported. -/
theorem read_delta_eq_sum_of_amounts (s : EncState) (l : List MutOp)
    (h : s.last_value = s.value) :
    ((s.applyMuts l).read_cb).2.enc_diff = (l.map (MutOp.amount s.fast_mult)).sum := by
  rw [read_cb_enc_diff]
  cases l with
  | nil =>
      simp only [EncState.applyMuts, List.foldl_nil, List.map_nil, List.sum_nil]
      split <;> omega
  | cons m rest =>
      have hch : (s.applyMuts (m :: rest)).value_changed = true :=
        applyMuts_value_changed_of_ne_nil s (m :: rest) (by simp)
      have hv := applyMuts_value s (m :: rest)
      have hl := applyMuts_last_value s (m :: rest)
      rw [if_pos hch, hv, hl, h]
      omega

/-- Witness for C1 at a concrete input: from a fresh encoder
(`fast_mult = 5`), the sequence `inc(3); dec(1); fast_inc(2); fast_dec(1)`
makes the next read report delta `3 - 1 + 10 - 5 = 7`. -/
theorem read_delta_eq_sum_of_amounts_witness :
    (init_state 500 5).last_value = (init_state 500 5).value ∧
    (((init_state 500 5).applyMuts
        [MutOp.inc 3, MutOp.dec 1, MutOp.fast_inc 2, MutOp.fast_dec 1]).read_cb).2.enc_diff
      = ([MutOp.inc 3, MutOp.dec 1, MutOp.fast_inc 2, MutOp.fast_dec 1].map
          (MutOp.amount (init_state 500 5).fast_mult)).sum :=
  ⟨rfl,
    read_delta_eq_sum_of_amounts (init_state 500 5)
      [MutOp.inc 3, MutOp.dec 1, MutOp.fast_inc 2, MutOp.fast_dec 1] rfl⟩

/-- One call of the public `Encoder` API affecting the encoder state: a
counter mutation, `push` (whose state effect is `press_cb`), the timer or
caller invoking `press_cb` / `release_cb`, or LVGL invoking the read
callback. -/
inductive EncOp where
  | mutate (m : MutOp)
  | push (period : Option Int)
  | press
  | release
  | read
deriving DecidableEq, Repr

/-- State effect of one API call. -/
def EncState.applyOp (s : EncState) : EncOp → EncState
  | EncOp.mutate m => s.applyMut m
  | EncOp.push p => (s.push p).1
  | EncOp.press => s.press_cb
  | EncOp.release => s.release_cb
  | EncOp.read => (s.read_cb).1

/-- The encoder state reached from a freshly constructed `Encoder` by a
sequence of API calls, applied left to right. -/
def run (def_dur fast_mult : Int) (l : List EncOp) : EncState :=
  l.foldl EncState.applyOp (init_state def_dur fast_mult)

/-- The data-model invariant maintained by every reachable encoder state:
when the change flag is clear, the counter agrees with its last reported
snapshot. -/
def SyncInv (s : EncState) : Prop :=
  s.value_changed = false → s.value = s.last_value

theorem syncInv_applyOp (s : EncState) (op : EncOp) (hs : SyncInv s) :
    SyncInv (s.applyOp op) := by
  cases op with
  | mutate m =>
      intro hc
      rw [EncState.applyOp, applyMut_value_changed s m] at hc
      cases hc
  | push p =>
      intro hc
      simp only [EncState.applyOp, EncState.push, EncState.press_cb] at hc ⊢
      exact hs hc
  | press =>
      intro hc
      simp only [EncState.applyOp, EncState.press_cb] at hc ⊢
      exact hs hc
  | release =>
      intro hc
      simp only [EncState.applyOp, EncState.release_cb] at hc ⊢
      exact hs hc
  | read =>
      intro _
      simp only [EncState.applyOp, read_cb_fst]
      split <;> simp_all [SyncInv]

theorem syncInv_foldl (l : List EncOp) (s : EncState) (hs : SyncInv s) :
    SyncInv (l.foldl EncState.applyOp s) := by
  induction l generalizing s with
  | nil => exact hs
  | cons op rest ih => exact ih (s.applyOp op) (syncInv_applyOp s op hs)

theorem syncInv_run (def_dur fast_mult : Int) (l : List EncOp) :
    SyncInv (run def_dur fast_mult l) :=
  syncInv_foldl l (init_state def_dur fast_mult) (fun _ => rfl)

/-- C2: after every invocation of the read callback on an encoder state
reached by any sequence of API calls from construction, the tracking fields
are synchronised: `_last_value == _value`, `_lastpressed == pressed`, and
`_value_changed == False`. -/
theorem read_cb_synchronises (def_dur fast_mult : Int) (l : List EncOp) :
    (((run def_dur fast_mult l).read_cb).1).last_value
        = ((run def_dur fast_mult l).read_cb).1.value ∧
    (((run def_dur fast_mult l).read_cb).1).lastpressed
        = ((run def_dur fast_mult l).read_cb).1.pressed ∧
    (((run def_dur fast_mult l).read_cb).1).value_changed = false := by
  have hinv := syncInv_run def_dur fast_mult l
  rw [read_cb_fst]
  refine ⟨?_, rfl, rfl⟩
  by_cases hc : (run def_dur fast_mult l).value_changed
  · simp [hc]
  · simp only [Bool.not_eq_true] at hc
    simp [hc, (hinv hc).symm]

/-- C3 counterexample: from a fresh encoder, the single mutation `inc(0)`
leaves `_value_changed = True` while `_value == _last_value`, so the dirty
flag is not equivalent to `counter != last_reported_counter` between reads. -/
theorem dirty_iff_counter_changed_cex :
    (run 500 5 [EncOp.mutate (MutOp.inc 0)]).value_changed = true ∧
    (run 500 5 [EncOp.mutate (MutOp.inc 0)]).value
      = (run 500 5 [EncOp.mutate (MutOp.inc 0)]).last_value := by
  constructor <;> rfl

/-- C3 amended: at every point between reads, over every sequence of API
calls, a clear dirty flag implies `counter == last_reported_counter`
(equivalently, a counter difference implies dirty); the converse direction
fails because every mutation call sets the flag, even with zero net effect
such as `inc(0)`. -/
theorem not_dirty_imp_counter_reported (def_dur fast_mult : Int) (l : List EncOp)
    (h : (run def_dur fast_mult l).value_changed = false) :
    (run def_dur fast_mult l).value = (run def_dur fast_mult l).last_value :=
  syncInv_run def_dur fast_mult l h

/-- Witness for the amended C3 at a concrete input: after `inc(2)` then a
read, the dirty flag is clear and the counter equals its reported snapshot. -/
theorem not_dirty_imp_counter_reported_witness :
    (run 500 5 [EncOp.mutate (MutOp.inc 2), EncOp.read]).value_changed = false ∧
    (run 500 5 [EncOp.mutate (MutOp.inc 2), EncOp.read]).value
      = (run 500 5 [EncOp.mutate (MutOp.inc 2), EncOp.read]).last_value :=
  ⟨rfl, not_dirty_imp_counter_reported 500 5
    [EncOp.mutate (MutOp.inc 2), EncOp.read] rfl⟩

/-- C4: for every encoder state (reachable or not), two consecutive
invocations of the read callback with no mutation in between yield, on the
second call, no press/release transition and zero delta: the quiet state is
idempotent under read. -/
theorem read_cb_idempotent_quiet (s : EncState) :
    ((((s.read_cb).1).read_cb)).2.state = none ∧
    ((((s.read_cb).1).read_cb)).2.enc_diff = 0 := by
  constructor
  · rw [read_cb_data_state, read_cb_fst]
    simp
  · rw [read_cb_enc_diff, read_cb_fst]
    simp

/-- C5: from a released, synchronised state, `push` sets `pressed = True`
immediately and schedules a one-shot timer (repeat count 1) whose period is
the given duration, defaulting to `def_dur`; the next read then reports a
PRESSED transition, and after the timer callback `release_cb` fires the next
read reports a RELEASED transition. -/
theorem push_press_release_cycle (s : EncState) (d : Option Int)
    (_hp : s.pressed = false) (hl : s.lastpressed = false)
    (hd : ∀ k, d = some k → k ≠ 0) :
    ((s.push d).1).pressed = true ∧
    ((s.push d).2).period = d.getD s.def_dur ∧
    ((s.push d).2).repeat_count = 1 ∧
    (((s.push d).1).read_cb).2.state = some IndevState.pressed ∧
    (((((s.push d).1).read_cb).1.release_cb).read_cb).2.state
      = some IndevState.released ∧
    ((((s.push d).1).read_cb).1.release_cb).pressed = false := by
  have hfst : (s.push d).1 = EncState.press_cb s := rfl
  refine ⟨rfl, ?_, rfl, ?_, ?_, ?_⟩
  · cases d with
    | none => rfl
    | some k =>
        have hk : k ≠ 0 := hd k rfl
        show (if k = 0 then s.def_dur else k) = k
        exact if_neg hk
  · rw [hfst, read_cb_data_state]
    simp [EncState.press_cb, hl]
  · rw [hfst, read_cb_data_state, read_cb_fst]
    simp [EncState.press_cb, EncState.release_cb]
  · rw [hfst, read_cb_fst]
    simp [EncState.press_cb, EncState.release_cb]

/-- Witness for C5 at a concrete input: a fresh encoder pushed with the
default duration reports PRESSED on the next read and RELEASED on the read
after the timer callback fires. -/
theorem push_press_release_cycle_witness :
    (init_state 500 5).pressed = false ∧
    (init_state 500 5).lastpressed = false ∧
    ((((init_state 500 5).push none).1).read_cb).2.state
      = some IndevState.pressed ∧
    ((((((init_state 500 5).push none).1).read_cb).1.release_cb).read_cb).2.state
      = some IndevState.released :=
  ⟨rfl, rfl,
    (push_press_release_cycle (init_state 500 5) none rfl rfl
      (fun _ hk => Option.noConfusion hk)).2.2.2.1,
    (push_press_release_cycle (init_state 500 5) none rfl rfl
      (fun _ hk => Option.noConfusion hk)).2.2.2.2.1⟩

/-- C10: calling `push` with period 0 does not schedule a zero-millisecond
timer: the falsy test `if not period` treats 0 like `None`, so the release
timer is scheduled with the default duration `def_dur` instead; consequently,
whenever `def_dur` is nonzero (as the default 500 is), no argument to `push`
can schedule a 0 ms timer. -/
theorem push_zero_period_uses_def_dur (s : EncState) :
    ((s.push (some 0)).2).period = s.def_dur ∧
    (s.def_dur ≠ 0 → ∀ d, ((s.push d).2).period ≠ 0) := by
  constructor
  · rfl
  · intro h d
    cases d with
    | none => exact h
    | some k =>
        show (if k = 0 then s.def_dur else k) ≠ 0
        split
        · exact h
        · rename_i hk
          exact hk

/-- Witness for C10 at a concrete input: with the default `def_dur = 500`,
`push(0)` schedules a 500 ms timer and `push(7)` never schedules 0 ms. -/
theorem push_zero_period_uses_def_dur_witness :
    (init_state 500 5).def_dur ≠ 0 ∧
    (((init_state 500 5).push (some 0)).2).period = (init_state 500 5).def_dur ∧
    (((init_state 500 5).push (some 7)).2).period ≠ 0 :=
  ⟨by decide, (push_zero_period_uses_def_dur (init_state 500 5)).1,
    (push_zero_period_uses_def_dur (init_state 500 5)).2 (by decide) (some 7)⟩

/-- The focus-group state read and written by `Encoder.long_push` through
`self.indev.get_group()`: the editing flag and the currently focused object.
LVGL objects are modelled as `Nat` handles; `get_focused()` returns `None`
(falsy) or an object (always truthy). -/
structure LvGroup where
  editing : Bool
  focused : Option Nat
deriving DecidableEq, Repr

/-- An event dispatched with `send_event`; `long_pressed o` models
`o.send_event(lv.EVENT.LONG_PRESSED, None)`. -/
inductive LvEvent where
  | long_pressed (target : Nat)
deriving DecidableEq, Repr

/-- `Encoder.long_push()`: if the indev's group is editing, set editing to
`False`; elif the group has a focused object, send it a LONG_PRESSED event;
else do nothing.  Returns the updated group and the events dispatched. -/
def long_push (g : LvGroup) : LvGroup × List LvEvent :=
  if g.editing then ({ g with editing := false }, [])
  else
    match g.focused with
    | some o => (g, [LvEvent.long_pressed o])
    | none => (g, [])

/-- C7: `long_push` on an editing focus group clears editing mode and
dispatches no event; on a non-editing group with a focused object it leaves
the group unchanged and dispatches exactly one LONG_PRESSED event to that
object; and on a non-editing group with nothing focused it is a no-op. -/
theorem long_push_cases (g : LvGroup) :
    (g.editing = true →
      (long_push g).1.editing = false ∧ (long_push g).2 = []) ∧
    (g.editing = false → ∀ o, g.focused = some o →
      (long_push g).1 = g ∧ (long_push g).2 = [LvEvent.long_pressed o]) ∧
    (g.editing = false → g.focused = none → long_push g = (g, [])) := by
  refine ⟨?_, ?_, ?_⟩
  · intro he
    simp [long_push, he]
  · intro he o ho
    simp [long_push, he, ho]
  · intro he ho
    simp [long_push, he, ho]

/-- Witness for C7 at a concrete input: on an editing group with object 3
focused, `long_push` exits editing mode and dispatches nothing. -/
theorem long_push_cases_witness :
    (LvGroup.mk true (some 3)).editing = true ∧
    ((long_push (LvGroup.mk true (some 3))).1.editing = false ∧
      (long_push (LvGroup.mk true (some 3))).2 = []) :=
  ⟨rfl, (long_push_cases (LvGroup.mk true (some 3))).1 rfl⟩

/-- An LVGL input device as configured by `Encoder.__init__`: created with
`lv.indev_create()`, given type ENCODER, the read callback `_read_cb`, a
group and a display.  `id` records creation order. -/
structure LvIndev where
  id : Nat
  is_encoder_type : Bool
  has_read_cb : Bool
  group : Nat
  display : Nat
deriving DecidableEq, Repr

/-- The LVGL global registry of created input devices: `lv.indev_create()`
appends a device and hands out the next handle. -/
structure LvWorld where
  next_id : Nat
  indevs : List LvIndev
deriving DecidableEq, Repr

/-- A fully constructed `Encoder` object: its state fields plus the handle
of the LVGL indev it registered. -/
structure Encoder where
  state : EncState
  indev : Nat
deriving DecidableEq, Repr

/-- `Encoder.__init__(group, display, def_dur, fast_mult)`: initialises the
state fields, then creates an LVGL indev, sets its type to ENCODER, installs
`_read_cb` as its read callback, and sets its group and display.  Returns
the encoder and the grown registry. -/
def Encoder.create (w : LvWorld) (group display : Nat)
    (def_dur fast_mult : Int) : Encoder × LvWorld :=
  ({ state := init_state def_dur fast_mult, indev := w.next_id },
    { next_id := w.next_id + 1,
      indevs := w.indevs ++
        [{ id := w.next_id, is_encoder_type := true, has_read_cb := true,
           group := group, display := display }] })

/-- `Encoder.get_indev(index)`: returns `self.indev` when `index == 0`, else
raises `ValueError("Encoder object only has 1 indev, index is 0")`. -/
def Encoder.get_indev (e : Encoder) (index : Int) : Except String Nat :=
  if index = 0 then Except.ok e.indev
  else Except.error "Encoder object only has 1 indev, index is 0"

/-- Holds when a modelled Python call raises instead of returning. -/
def raises {α : Type} (r : Except String α) : Prop :=
  ∃ msg, r = Except.error msg

/-- C8: `Encoder.get_indev(index)` raises exactly when `index` is nonzero —
only the single channel 0 exists — and returns the encoder's registered
indev at index 0. -/
theorem get_indev_raises_iff (e : Encoder) (index : Int) :
    (raises (e.get_indev index) ↔ index ≠ 0) ∧
    e.get_indev 0 = Except.ok e.indev := by
  constructor
  · constructor
    · rintro ⟨msg, hmsg⟩ h0
      rw [h0] at hmsg
      simp [Encoder.get_indev] at hmsg
    · intro h
      exact ⟨"Encoder object only has 1 indev, index is 0",
        by simp [Encoder.get_indev, h]⟩
  · rfl

/-- Capability surface of the `Rotary` base class that `EncoderIRQ.__init__`
relies on: the real `RotaryIRQ` drivers provide `add_listener`; the fallback
empty `Rotary` class (platform not detected, or `rotary_irq_*` import
failed) does not. -/
structure RotaryClass where
  has_add_listener : Bool
deriving DecidableEq, Repr

/-- The empty fallback `Rotary` class bound when the platform is not among
esp8266/esp32/pyboard/rp2 or when the driver module import fails. -/
def fallbackRotary : RotaryClass :=
  { has_add_listener := false }

/-- `EncoderIRQ.__init__`: first runs `Encoder.__init__` (creating and
registering the LVGL indev), then tries `Rotary.__init__` followed by
`self.add_listener(self._set_value_changed)`; with the fallback class the
attribute is missing, the `AttributeError` is caught, and
`ImportError("The micropython-rotary module was not found.")` is raised.
Returns the raised-or-constructed result with the registry after the call. -/
def EncoderIRQ.create (rotary : RotaryClass) (w : LvWorld) (group display : Nat)
    (def_dur fast_mult : Int) : Except String Encoder × LvWorld :=
  let ew := Encoder.create w group display def_dur fast_mult
  if rotary.has_add_listener then (Except.ok ew.1, ew.2)
  else (Except.error "The micropython-rotary module was not found.", ew.2)

/-- C6 counterexample: constructing `EncoderIRQ` with the fallback `Rotary`
class from an empty LVGL registry does raise the driver-unavailable
`ImportError`, but only after `Encoder.__init__` has created and registered
an encoder-type indev with its read callback installed — a partially
constructed, usable adapter is left behind, refuting the claim. -/
theorem encoderIRQ_partial_adapter_cex :
    (EncoderIRQ.create fallbackRotary (LvWorld.mk 0 []) 0 0 500 5).1
      = Except.error "The micropython-rotary module was not found." ∧
    ((EncoderIRQ.create fallbackRotary (LvWorld.mk 0 []) 0 0 500 5).2).indevs
      = [LvIndev.mk 0 true true 0 0] :=
  ⟨rfl, rfl⟩

/-- C6 amended: whenever the rotary capability is unavailable, `EncoderIRQ`
construction fails with the clear ImportError for every group, display and
configuration, but the failure is not clean: the completed
`Encoder.__init__` leaves the registry grown by one registered encoder-type
indev with the read callback installed. -/
theorem encoderIRQ_fallback_raises (rotary : RotaryClass) (w : LvWorld)
    (group display : Nat) (def_dur fast_mult : Int)
    (h : rotary.has_add_listener = false) :
    (EncoderIRQ.create rotary w group display def_dur fast_mult).1
      = Except.error "The micropython-rotary module was not found." ∧
    ((EncoderIRQ.create rotary w group display def_dur fast_mult).2).indevs
      = w.indevs ++ [LvIndev.mk w.next_id true true group display] := by
  constructor <;> simp [EncoderIRQ.create, Encoder.create, h]

/-- Witness for the amended C6 at a concrete input. -/
theorem encoderIRQ_fallback_raises_witness :
    fallbackRotary.has_add_listener = false ∧
    ((EncoderIRQ.create fallbackRotary (LvWorld.mk 3 []) 1 2 500 5).1
        = Except.error "The micropython-rotary module was not found." ∧
      ((EncoderIRQ.create fallbackRotary (LvWorld.mk 3 []) 1 2 500 5).2).indevs
        = (LvWorld.mk 3 []).indevs ++ [LvIndev.mk 3 true true 1 2]) :=
  ⟨rfl, encoderIRQ_fallback_raises fallbackRotary (LvWorld.mk 3 []) 1 2 500 5 rfl⟩

/-- Python translation of an `int` subscript: negative indices have the
length added.  (`l[i]` uses `i + len(l)` when `i < 0`.) -/
def pyIndex (n : Nat) (i : Int) : Int :=
  if i < 0 then i + n else i

/-- Python list subscript `l[i]` for an `int` index: after negative-index
translation, in-range indices return the element and anything else raises
`IndexError("list index out of range")`. -/
def pyGetItem {α : Type} (l : List α) (i : Int) : Except String α :=
  if h : 0 ≤ pyIndex l.length i ∧ pyIndex l.length i < l.length then
    Except.ok (l.get ⟨(pyIndex l.length i).toNat, by omega⟩)
  else Except.error "list index out of range"

/-- The state of an `EncoderWidget` relevant to `get_indev`: `self.indevs`,
appended to once per group by `_create_encoder`, in creation order. -/
structure EncoderWidget where
  indevs : List Nat
deriving DecidableEq, Repr

/-- `EncoderWidget.__init__` restricted to its adapter bookkeeping: for each
group in order, `_create_encoder` constructs an `Encoder` (registering one
indev) and appends `enc.get_indev()` to `self.indevs`. -/
def EncoderWidget.create (w : LvWorld) (groups : List Nat) (display : Nat)
    (def_dur fast_mult : Int) : EncoderWidget × LvWorld :=
  let step := fun (acc : List Nat × LvWorld) (g : Nat) =>
    let ew := Encoder.create acc.2 g display def_dur fast_mult
    (acc.1 ++ [ew.1.indev], ew.2)
  let r := groups.foldl step ([], w)
  ({ indevs := r.1 }, r.2)

/-- `EncoderWidget.get_indev(index)`: `return self.indevs[index]`, Python
list subscripting on the creation-order list. -/
def EncoderWidget.get_indev (ew : EncoderWidget) (index : Int) : Except String Nat :=
  pyGetItem ew.indevs index

/-- C9 counterexample: a widget constructed over one group holds one indev
(handle 0), and `get_indev(-1)` returns that indev — Python negative
indexing wraps around — instead of raising, refuting the claim that every
negative index is an error. -/
theorem widget_get_indev_negative_cex :
    ((EncoderWidget.create (LvWorld.mk 0 []) [4] 1 500 5).1).indevs = [0] ∧
    ((EncoderWidget.create (LvWorld.mk 0 []) [4] 1 500 5).1).get_indev (-1)
      = Except.ok 0 := by
  constructor <;> rfl

/-- C9 amended: for every widget holding `n` indevs in creation order and
every integer index `i`: indices `0 ≤ i < n` return the indev at position
`i`; indices `-n ≤ i < 0` return the indev at position `n + i` (Python
negative indexing) rather than raising; and `get_indev` raises exactly for
`i ≥ n` or `i < -n`. -/
theorem widget_get_indev_spec (ew : EncoderWidget) (i : Int) :
    (0 ≤ i → i < (ew.indevs.length : Int) →
      ew.get_indev i = Except.ok (ew.indevs.getD i.toNat 0)) ∧
    (-(ew.indevs.length : Int) ≤ i → i < 0 →
      ew.get_indev i
        = Except.ok (ew.indevs.getD (i + (ew.indevs.length : Int)).toNat 0)) ∧
    ((i < -(ew.indevs.length : Int) ∨ (ew.indevs.length : Int) ≤ i) →
      ew.get_indev i = Except.error "list index out of range") := by
  refine ⟨?_, ?_, ?_⟩
  · intro h0 hn
    have hj : pyIndex ew.indevs.length i = i := by
      unfold pyIndex
      rw [if_neg (by omega)]
    unfold EncoderWidget.get_indev pyGetItem
    simp only [hj]
    have hc : 0 ≤ i ∧ i < (ew.indevs.length : Int) := ⟨h0, hn⟩
    rw [dif_pos hc]
    have hlt : i.toNat < ew.indevs.length := by omega
    rw [List.getD_eq_get _ _ hlt]
  · intro hn h0
    have hj : pyIndex ew.indevs.length i = i + ew.indevs.length := by
      unfold pyIndex
      rw [if_pos (by omega)]
    unfold EncoderWidget.get_indev pyGetItem
    simp only [hj]
    have hc : 0 ≤ i + (ew.indevs.length : Int) ∧
        i + (ew.indevs.length : Int) < (ew.indevs.length : Int) := ⟨by omega, by omega⟩
    rw [dif_pos hc]
    have hlt : (i + (ew.indevs.length : Int)).toNat < ew.indevs.length := by omega
    rw [List.getD_eq_get _ _ hlt]
  · intro hout
    unfold EncoderWidget.get_indev pyGetItem
    rw [dif_neg]
    unfold pyIndex
    rcases hout with h1 | h2
    · rw [if_pos (by omega)]
      omega
    · rw [if_neg (by omega)]
      omega

/-- Witness for the amended C9 at concrete inputs: a two-group widget
returns the first indev at index 0 and the second at index -1, and raises at
index 2. -/
theorem widget_get_indev_spec_witness :
    (0 : Int) ≤ 0 ∧ (0 : Int) <
      (((EncoderWidget.create (LvWorld.mk 0 []) [4, 9] 1 500 5).1).indevs.length : Int) ∧
    ((EncoderWidget.create (LvWorld.mk 0 []) [4, 9] 1 500 5).1).get_indev 0
      = Except.ok (((EncoderWidget.create (LvWorld.mk 0 []) [4, 9] 1 500 5).1).indevs.getD
          ((0 : Int)).toNat 0) ∧
    ((EncoderWidget.create (LvWorld.mk 0 []) [4, 9] 1 500 5).1).get_indev 2
      = Except.error "list index out of range" :=
  ⟨by decide, by decide,
    (widget_get_indev_spec ((EncoderWidget.create (LvWorld.mk 0 []) [4, 9] 1 500 5).1)
      0).1 (by decide) (by decide),
    (widget_get_indev_spec ((EncoderWidget.create (LvWorld.mk 0 []) [4, 9] 1 500 5).1)
      2).2.2 (Or.inr (by decide))⟩

end LvmpEncoders
